import Mathlib

/-!
Shallow embedding of the camisole execution pipeline
(src/camisole/models.py and src/camisole/httpserver.py).

Byte strings are modelled as lists of naturals, host strings as `String`
or lists of characters.  The sandbox itself (camisole.isolate) is external
to the pipeline code: every place the pipeline awaits a sandbox run, the
embedding takes the sandbox outcome as a parameter.
-/

namespace Camisole

/-- Run-metadata record: the fixed keys of the meta dictionary built by the
sandbox driver and of the short-circuit defaults dict in Lang.run_tests
(models.py lines 203-217).  The two float-valued time fields only ever
matter here at their zero values and are modelled by naturals. -/
structure MetaInfo where
  cgMem : Nat
  cgOomKilled : Nat
  cswForced : Nat
  cswVoluntary : Nat
  exitcode : Int
  exitsig : Nat
  exitsigMessage : Option String
  killed : Bool
  maxRss : Nat
  message : Option String
  status : String
  time : Nat
  timeWall : Nat
deriving DecidableEq, Repr

/-- The isolator.info dictionary one sandbox run produces: the meta record
plus the captured stream buffers. -/
structure Info where
  meta : MetaInfo
  stdout : List Nat
  stderr : List Nat
deriving DecidableEq, Repr

/-- One element of opts["tests"]: the keys Lang.run_tests and
InteractiveLang.execute read from a test spec. -/
structure TestSpec where
  name : Option String := none
  stdin : Option (List Nat) := none
  fatal : Bool := false
deriving DecidableEq, Repr

/-- The option bag keys the pipeline reads (models.py): program source
bytes, the ordered test list (none = key absent, defaulting to one empty
spec), and the all_fatal flag. -/
structure Opts where
  source : Option (List Nat) := none
  tests : Option (List TestSpec) := none
  allFatal : Bool := false

/-- The short_meta_defaults dict of Lang.run_tests (models.py 203-217):
every run-metadata key at its deterministic zero value, status
SHORT_CIRCUIT. -/
def short_meta_defaults : MetaInfo :=
  { cgMem := 0
    cgOomKilled := 0
    cswForced := 0
    cswVoluntary := 0
    exitcode := 0
    exitsig := 0
    exitsigMessage := none
    killed := false
    maxRss := 0
    message := none
    status := "SHORT_CIRCUIT"
    time := 0
    timeWall := 0 }

/-- Zero-padding of the default test name index, Python format 03d. -/
def pad3 (i : Nat) : String :=
  let s := toString i
  String.mk (List.replicate (3 - s.length) (Char.ofNat 48)) ++ s

/-- test.get("name", "test" + zero-padded index) from Lang.run_tests. -/
def test_name (t : TestSpec) (i : Nat) : String :=
  t.name.getD ("test" ++ pad3 i)

/-- The status test that sets is_shorted (models.py line 229). -/
def isShortStatus (s : String) : Bool :=
  s == "TIMED_OUT" || s == "RUNTIME_ERROR"

/-- One slot of result["tests"].  The list is pre-allocated to empty dicts
(result["tests"] = [empty dict] * len(tests)); `slot0` is such an
untouched placeholder, `shorted` the short-circuit record (name and meta
only), `executed` the record merging the test name with the run info. -/
inductive TestEntry where
  | slot0 : TestEntry
  | shorted : String → MetaInfo → TestEntry
  | executed : String → Info → TestEntry
deriving DecidableEq, Repr

/-- The loop of Lang.run_tests (models.py 200-235).  `ex i` is the sandbox
outcome (isolate_retcode, info) of executing test number i; `i` is the
enumerate counter, `shorted` the is_shorted flag.  On the fatal break the
remaining pre-allocated slots stay untouched. -/
def run_tests_from (ex : Nat → Int × Info) (allFatal : Bool) :
    List TestSpec → Nat → Bool → List TestEntry
  | [], _, _ => []
  | t :: ts, i, shorted =>
    if shorted then
      TestEntry.shorted (test_name t i) short_meta_defaults ::
        run_tests_from ex allFatal ts (i + 1) true
    else
      let r := ex i
      let entry := TestEntry.executed (test_name t i) r.2
      if (r.1 != 0) && (t.fatal || allFatal) then
        entry :: ts.map (fun _ => TestEntry.slot0)
      else
        entry :: run_tests_from ex allFatal ts (i + 1)
          (isShortStatus r.2.meta.status)

/-- Lang.run_tests (models.py 195-235): the tests default, the
pre-allocation of result["tests"] only when the list is non-empty, and
the loop.  Returns the final value of result["tests"] (none = the key is
absent from the result). -/
def run_tests (ex : Nat → Int × Info) (opts : Opts) : Option (List TestEntry) :=
  let tests := opts.tests.getD [{}]
  if tests.isEmpty then none
  else some (run_tests_from ex opts.allFatal tests 0 false)

/-- The triple Lang.compile returns (models.py line 159): the isolator
retcode, the isolator info recorded under result["compile"], and the bytes
read back from the box (none when the file is missing or unreadable).
The sandboxed compiler run itself is external; run_compilation is
parametrised by its outcome. -/
structure CompileOutcome where
  retcode : Int
  info : Info
  binary : Option (List Nat)
deriving DecidableEq, Repr

/-- ASCII whitespace for the Python bytes strip() truthiness test. -/
def isSpaceByte (b : Nat) : Bool :=
  b == 32 || b == 9 || b == 10 || b == 11 || b == 12 || b == 13

/-- ASCII codes of a literal. -/
def strBytes (s : String) : List Nat := s.data.map Char.toNat

/-- The diagnostic line appended when the compile stage leaves no binary. -/
def cannot_find_msg : List Nat := strBytes "Cannot find result binary.\n"

/-- Modelled from the spec: camisole.utils.force_bytes is not among the
repository files; per the spec the source field carries program source
bytes, so force_bytes of the source (defaulting to the empty string) is
the byte string itself, empty when the key is absent. -/
def force_bytes (source : Option (List Nat)) : List Nat := source.getD []

/-- A single-run result dict: the optional "compile" and "tests" keys
(none = key absent). -/
structure RunResult where
  compile : Option Info := none
  tests : Option (List TestEntry) := none
deriving DecidableEq, Repr

/-- Lang.run_compilation (models.py 180-193): with a compiler, record the
info under result["compile"], stop on a nonzero retcode, append the
missing-binary diagnostic (with a blank separator when the stripped
stderr is non-empty) when no binary was read back; with no compiler the
artifact is the forced source bytes.  Returns the updated result and the
binary handed on (none models the Python None return). -/
def run_compilation (hasCompiler : Bool) (co : CompileOutcome)
    (opts : Opts) (result : RunResult) :
    RunResult × Option (List Nat) :=
  if hasCompiler then
    let result := { result with compile := some co.info }
    if co.retcode != 0 then (result, none)
    else
      match co.binary with
      | none =>
        let sep := if co.info.stderr.any (fun b => !(isSpaceByte b))
          then strBytes "\n\n" else []
        ({ result with
            compile := some { co.info with
              stderr := co.info.stderr ++ sep ++ cannot_find_msg } }, none)
      | some b => (result, some b)
  else (result, some (force_bytes opts.source))

/-- Lang.run (models.py 237-243): compile, the truthiness check on the
binary (None or empty bytes stop the run), then run_tests. -/
def run (hasCompiler : Bool) (co : CompileOutcome)
    (ex : Nat → Int × Info) (opts : Opts) : RunResult :=
  let p := run_compilation hasCompiler co opts {}
  match p.2 with
  | none => p.1
  | some b => if b.isEmpty then p.1 else { p.1 with tests := run_tests ex opts }

/-- The outcome run_interactive leaves in the two isolators (models.py
line 375): (prog retcode, prog info, interact retcode, interact info). -/
structure PairOutcome where
  progRetcode : Int
  progInfo : Info
  interactRetcode : Int
  interactInfo : Info
deriving DecidableEq, Repr

/-- The loop of InteractiveLang.run_tests (models.py 383-427): paired
entries written into result_prog["tests"] and result_interact["tests"];
is_shorted follows the prog status only, the break fires when either
retcode is nonzero and the test is fatal (or all_fatal on the interactor
opts). -/
def interactive_run_tests_from (ex : Nat → PairOutcome) (allFatal : Bool) :
    List TestSpec → Nat → Bool → List TestEntry × List TestEntry
  | [], _, _ => ([], [])
  | t :: ts, i, shorted =>
    let name := test_name t i
    if shorted then
      let rest := interactive_run_tests_from ex allFatal ts (i + 1) true
      (TestEntry.shorted name short_meta_defaults :: rest.1,
       TestEntry.shorted name short_meta_defaults :: rest.2)
    else
      let r := ex i
      let eProg := TestEntry.executed name r.progInfo
      let eInt := TestEntry.executed name r.interactInfo
      if (r.progRetcode != 0 || r.interactRetcode != 0) && (t.fatal || allFatal) then
        (eProg :: ts.map (fun _ => TestEntry.slot0),
         eInt :: ts.map (fun _ => TestEntry.slot0))
      else
        let rest := interactive_run_tests_from ex allFatal ts (i + 1)
          (isShortStatus r.progInfo.meta.status)
        (eProg :: rest.1, eInt :: rest.2)

/-- InteractiveLang.run_tests (models.py 377-427): the test list and the
all_fatal flag come from the interactor opts alone; both results are
pre-allocated only when that list is non-empty. -/
def interactive_run_tests (ex : Nat → PairOutcome) (optsInteract : Opts) :
    Option (List TestEntry) × Option (List TestEntry) :=
  let tests := optsInteract.tests.getD [{}]
  if tests.isEmpty then (none, none)
  else
    let p := interactive_run_tests_from ex optsInteract.allFatal tests 0 false
    (some p.1, some p.2)

/-- Python truthiness of the binary returned by run_compilation. -/
def binaryTruthy : Option (List Nat) → Bool
  | none => false
  | some l => !l.isEmpty

/-- InteractiveLang.run (models.py 337-345): both compilations, the joint
truthiness check, then the paired test loop.  Returns the pair
(result prog, result interact). -/
def interactive_run (hasCompilerProg hasCompilerInteract : Bool)
    (coProg coInteract : CompileOutcome) (ex : Nat → PairOutcome)
    (optsProg optsInteract : Opts) : RunResult × RunResult :=
  let pp := run_compilation hasCompilerProg coProg optsProg {}
  let pq := run_compilation hasCompilerInteract coInteract optsInteract {}
  if binaryTruthy pp.2 && binaryTruthy pq.2 then
    let tr := interactive_run_tests ex optsInteract
    ({ pp.1 with tests := tr.1 }, { pq.1 with tests := tr.2 })
  else (pp.1, pq.1)

/-- InteractiveLang.execute (models.py 347-375) reduced to its
input-handling skeleton: input_data is the forced stdin of the test spec
when present and truthy, else it stays None; after both binaries are
written, input.txt is opened in the interactor box and input_data is
written into it unconditionally, so a None input_data raises a TypeError
before run_interactive is reached.  The coupler outcome itself is the
parameter. -/
def interactive_execute (out : PairOutcome) (test : TestSpec) :
    Except String PairOutcome :=
  let inputData : Option (List Nat) :=
    match test.stdin with
    | some d => if d.isEmpty then none else some d
    | none => none
  match inputData with
  | none => Except.error "TypeError: a bytes-like object is required, not NoneType"
  | some _ => Except.ok out

/-- Match a literal character list at the head of a list, returning the
remainder on success. -/
def matchLit : List Char → List Char → Option (List Char)
  | [], l => some l
  | _ :: _, [] => none
  | p :: ps, c :: cs => if p = c then matchLit ps cs else none

/-- Greedy digit run: the maximal digit span and the remainder. -/
def takeDigits : List Char → List Char × List Char
  | [] => ([], [])
  | c :: cs =>
    if c.isDigit then
      let p := takeDigits cs
      (c :: p.1, p.2)
    else ([], c :: cs)

/-- One attempted match, at the head of the list, of the regular
expression of Lang.filter_box_... (models.py 277-279): the literal
/var/ then an optional local/ (tried first, with backtracking), then
lib/isolate/ and a non-empty greedy digit run.  Returns the remainder
after the match. -/
def matchBoxPath (l : List Char) : Option (List Char) :=
  match matchLit "/var/".data l with
  | none => none
  | some r1 =>
    let r2 :=
      match matchLit "local/".data r1 with
      | some ra =>
        match matchLit "lib/isolate/".data ra with
        | some rb => some rb
        | none => matchLit "lib/isolate/".data r1
      | none => matchLit "lib/isolate/".data r1
    match r2 with
    | none => none
    | some r3 =>
      let p := takeDigits r3
      if p.1.isEmpty then none else some p.2

/-- The re.sub scan: at each position try the pattern; a match is dropped
(replaced by the empty string) and the scan resumes after it.  The fuel
bounds the recursion; filter_box always supplies enough. -/
def subBoxF : Nat → List Char → List Char
  | 0, l => l
  | _ + 1, [] => []
  | fuel + 1, c :: cs =>
    match matchBoxPath (c :: cs) with
    | some rest => subBoxF fuel rest
    | none => c :: subBoxF fuel cs

/-- Lang.filter_box_... : re.sub of the host box-path pattern with the
empty string. -/
def filter_box (l : List Char) : List Char := subBoxF l.length l

/-- Some position of the list begins a match of the host box-path
pattern. -/
def hasBoxPath : List Char → Bool
  | [] => false
  | c :: cs => (matchBoxPath (c :: cs)).isSome || hasBoxPath cs

/-- The box root directory of the isolate configuration (genisolate.py:
box_root = /var/local/lib/isolate). -/
def boxRootChars : List Char := "/var/local/lib/isolate/".data

/-- Modelled from the spec: camisole.isolate is not among the repository
files; per the spec the sandbox working directories are the box
directories /var/local/lib/isolate/(N) and the child observes a stable
/box view, so the working directory handed to the pipeline is the box id
directory followed by /box. -/
def boxWd (ds : List Char) : List Char := boxRootChars ++ ds ++ "/box".data

/-- str(wd / name): the host path of a file in the working directory. -/
def pathJoin (wd : List Char) (name : String) : List Char :=
  wd ++ "/".data ++ name.data

/-- Lang.source_filename (models.py 268-269). -/
def source_filename (sourceExt : String) : String := "source" ++ sourceExt

/-- Lang.execute_filename (models.py 271-275): compiled plus the source
extension for an interpreted descriptor with a truthy extension. -/
def execute_filename (hasCompiler : Bool) (sourceExt : Option String) : String :=
  match hasCompiler, sourceExt with
  | false, some ext => if ext.isEmpty then "compiled" else "compiled" ++ ext
  | _, _ => "compiled"

/-- Lang.write_binary (models.py 261-266): the artifact file written into
the box working directory, as (file name, bytes written). -/
def write_binary (hasCompiler : Bool) (sourceExt : Option String)
    (binary : List Nat) : String × List Nat :=
  (execute_filename hasCompiler sourceExt, binary)

/-- Lang.compile_command (models.py 281-287) with the default
compile_opt_out: the compiler path and options, then -o and the scrubbed
output path, then the scrubbed source path. -/
def compile_command (compilerCmd : List Char) (compilerOpts : List (List Char))
    (source compiled : List Char) : List (List Char) :=
  compilerCmd :: compilerOpts ++ ["-o".data, filter_box compiled] ++ [filter_box source]

/-- Lang.execute_command (models.py 289-293): the interpreter path and
options when an interpreter is declared, then the scrubbed artifact
path. -/
def execute_command (interp : Option (List Char × List (List Char)))
    (compiled : List Char) : List (List Char) :=
  (match interp with
   | some it => it.1 :: it.2
   | none => []) ++ [filter_box compiled]

/-- The HOME entry built from the working directory (models.py lines 147
and 173). -/
def home_env (wd : List Char) : List Char := filter_box wd

/-- An exception reaching the front-end error path: either the
RuntimeError the handlers raise, or the NameError evaluating an unbound
variable raises. -/
inductive PyError where
  | runtimeError : String → PyError
  | nameError : String → PyError
deriving DecidableEq, Repr

/-- The text of the exception as traceback.format_exc surfaces it in the
error response. -/
def errorText : PyError → String
  | PyError.runtimeError m => "RuntimeError: " ++ m
  | PyError.nameError v => "NameError: name " ++ v ++ " is not defined"

/-- Python str.lower for the ASCII names at issue here. -/
def lowerStr (s : String) : String := String.mk (s.data.map Char.toLower)

/-- The language dispatch of run_handler (httpserver.py 108-112): lower
the request language, look it up, and on a miss raise a RuntimeError
carrying the lowered name. -/
def run_handler_lookup (registry : List String) (langField : String) :
    Except PyError Unit :=
  let lang_name := lowerStr langField
  if registry.contains lang_name then Except.ok ()
  else Except.error (PyError.runtimeError ("Incorrect language " ++ lang_name))

/-- The language dispatch of interactive_handler (httpserver.py 124-134):
both names are lowered and looked up, but the messages of the two
RuntimeError raises are format strings over the name lang_name, which is
not bound in this handler, so evaluating either message raises a
NameError about lang_name instead. -/
def interactive_handler_lookup (registry : List String)
    (progLang interactLang : String) : Except PyError Unit :=
  let lang_name_prog := lowerStr progLang
  let lang_name_interact := lowerStr interactLang
  if registry.contains lang_name_prog then
    if registry.contains lang_name_interact then Except.ok ()
    else Except.error (PyError.nameError "lang_name")
  else Except.error (PyError.nameError "lang_name")

/-- Does the first list occur as a contiguous run inside the second? -/
def hasSub (needle : List Char) : List Char → Bool
  | [] => needle.isEmpty
  | c :: cs => (matchLit needle (c :: cs)).isSome || hasSub needle cs

/-! Step equations and invariants of the test loop. -/

theorem run_tests_from_nil (ex : Nat → Int × Info) (f : Bool) (i : Nat) (sh : Bool) :
    run_tests_from ex f [] i sh = [] := rfl

theorem run_tests_from_cons_break (ex : Nat → Int × Info) (f : Bool)
    (t : TestSpec) (ts : List TestSpec) (i : Nat)
    (h : (((ex i).1 != 0) && (t.fatal || f)) = true) :
    run_tests_from ex f (t :: ts) i false
      = TestEntry.executed (test_name t i) (ex i).2
        :: ts.map (fun _ => TestEntry.slot0) := by
  simp [run_tests_from, h]

theorem run_tests_from_cons_go (ex : Nat → Int × Info) (f : Bool)
    (t : TestSpec) (ts : List TestSpec) (i : Nat)
    (h : (((ex i).1 != 0) && (t.fatal || f)) = false) :
    run_tests_from ex f (t :: ts) i false
      = TestEntry.executed (test_name t i) (ex i).2
        :: run_tests_from ex f ts (i + 1) (isShortStatus (ex i).2.meta.status) := by
  simp [run_tests_from, h]

/-- The records the loop emits while is_shorted stays true. -/
def shorted_tail : List TestSpec → Nat → List TestEntry
  | [], _ => []
  | t :: ts, i =>
    TestEntry.shorted (test_name t i) short_meta_defaults :: shorted_tail ts (i + 1)

theorem run_tests_from_shorted (ex : Nat → Int × Info) (f : Bool) :
    ∀ (ts : List TestSpec) (i : Nat),
    run_tests_from ex f ts i true = shorted_tail ts i := by
  intro ts
  induction ts with
  | nil => intro i; rfl
  | cons t ts ih => intro i; simp [run_tests_from, shorted_tail, ih]

theorem shorted_tail_get :
    ∀ (ts : List TestSpec) (i k : Nat) (t : TestSpec), ts[k]? = some t →
    (shorted_tail ts i)[k]?
      = some (TestEntry.shorted (test_name t (i + k)) short_meta_defaults) := by
  intro ts
  induction ts with
  | nil => intro i k t h; simp at h
  | cons u ts ih =>
    intro i k t h
    cases k with
    | zero => simp at h; simp [shorted_tail, h]
    | succ k2 =>
      simp only [shorted_tail, List.getElem?_cons_succ]
      have e := ih (i + 1) k2 t (by simpa using h)
      rw [e]
      have e2 : i + 1 + k2 = i + (k2 + 1) := by omega
      rw [e2]

theorem shorted_tail_entry :
    ∀ (ts : List TestSpec) (i k : Nat) (e : TestEntry),
    (shorted_tail ts i)[k]? = some e →
    ∃ nm, e = TestEntry.shorted nm short_meta_defaults := by
  intro ts
  induction ts with
  | nil => intro i k e h; simp [shorted_tail] at h
  | cons u ts ih =>
    intro i k e h
    cases k with
    | zero =>
      simp [shorted_tail] at h
      exact ⟨test_name u i, h.symm⟩
    | succ k2 => exact ih (i + 1) k2 e (by simpa [shorted_tail] using h)

theorem run_tests_from_length (ex : Nat → Int × Info) (f : Bool) :
    ∀ (ts : List TestSpec) (i : Nat) (sh : Bool),
    (run_tests_from ex f ts i sh).length = ts.length := by
  intro ts
  induction ts with
  | nil => intro i sh; rfl
  | cons t ts ih =>
    intro i sh
    cases sh with
    | true => simp [run_tests_from, ih]
    | false =>
      by_cases h : (((ex i).1 != 0) && (t.fatal || f)) = true
      · simp [run_tests_from_cons_break ex f t ts i h]
      · rw [run_tests_from_cons_go ex f t ts i (by simpa using h)]
        simp [ih]

theorem interactive_run_tests_from_cons_shorted (ex : Nat → PairOutcome) (f : Bool)
    (t : TestSpec) (ts : List TestSpec) (i : Nat) :
    interactive_run_tests_from ex f (t :: ts) i true
      = (TestEntry.shorted (test_name t i) short_meta_defaults
           :: (interactive_run_tests_from ex f ts (i + 1) true).1,
         TestEntry.shorted (test_name t i) short_meta_defaults
           :: (interactive_run_tests_from ex f ts (i + 1) true).2) := by
  simp [interactive_run_tests_from]

theorem interactive_run_tests_from_cons_break (ex : Nat → PairOutcome) (f : Bool)
    (t : TestSpec) (ts : List TestSpec) (i : Nat)
    (h : (((ex i).progRetcode != 0 || (ex i).interactRetcode != 0)
        && (t.fatal || f)) = true) :
    interactive_run_tests_from ex f (t :: ts) i false
      = (TestEntry.executed (test_name t i) (ex i).progInfo
           :: ts.map (fun _ => TestEntry.slot0),
         TestEntry.executed (test_name t i) (ex i).interactInfo
           :: ts.map (fun _ => TestEntry.slot0)) := by
  simp [interactive_run_tests_from, h]

theorem interactive_run_tests_from_cons_go (ex : Nat → PairOutcome) (f : Bool)
    (t : TestSpec) (ts : List TestSpec) (i : Nat)
    (h : (((ex i).progRetcode != 0 || (ex i).interactRetcode != 0)
        && (t.fatal || f)) = false) :
    interactive_run_tests_from ex f (t :: ts) i false
      = (TestEntry.executed (test_name t i) (ex i).progInfo
           :: (interactive_run_tests_from ex f ts (i + 1)
                 (isShortStatus (ex i).progInfo.meta.status)).1,
         TestEntry.executed (test_name t i) (ex i).interactInfo
           :: (interactive_run_tests_from ex f ts (i + 1)
                 (isShortStatus (ex i).progInfo.meta.status)).2) := by
  simp [interactive_run_tests_from, h]

theorem interactive_run_tests_from_length (ex : Nat → PairOutcome) (f : Bool) :
    ∀ (ts : List TestSpec) (i : Nat) (sh : Bool),
    (interactive_run_tests_from ex f ts i sh).1.length = ts.length ∧
    (interactive_run_tests_from ex f ts i sh).2.length = ts.length := by
  intro ts
  induction ts with
  | nil => intro i sh; exact ⟨rfl, rfl⟩
  | cons t ts ih =>
    intro i sh
    cases sh with
    | true =>
      rw [interactive_run_tests_from_cons_shorted]
      simp only [List.length_cons]
      exact ⟨by rw [(ih (i + 1) true).1], by rw [(ih (i + 1) true).2]⟩
    | false =>
      by_cases h : (((ex i).progRetcode != 0 || (ex i).interactRetcode != 0)
          && (t.fatal || f)) = true
      · rw [interactive_run_tests_from_cons_break ex f t ts i h]
        simp
      · rw [interactive_run_tests_from_cons_go ex f t ts i (eq_false_of_ne_true h)]
        simp only [List.length_cons]
        exact ⟨by rw [(ih (i + 1) _).1], by rw [(ih (i + 1) _).2]⟩

/-! Facts about the host-path scrub. -/

theorem matchLit_append : ∀ (p r : List Char), matchLit p (p ++ r) = some r := by
  intro p
  induction p with
  | nil => intro r; rfl
  | cons c cs ih => intro r; simp [matchLit, ih]

theorem matchLit_append_eq :
    ∀ (p l r : List Char), matchLit p l = some r → l = p ++ r := by
  intro p
  induction p with
  | nil => intro l r h; simp [matchLit] at h; simp [h]
  | cons c cs ih =>
    intro l r h
    cases l with
    | nil => simp [matchLit] at h
    | cons d ds =>
      simp only [matchLit] at h
      by_cases e : c = d
      · subst e
        simp at h
        rw [ih ds r h]
        rfl
      · simp [e] at h

/-- A list whose head, if any, is not a digit. -/
def headNotDigit : List Char → Bool
  | [] => true
  | c :: _ => !c.isDigit

theorem takeDigits_eq_append :
    ∀ l : List Char, (takeDigits l).1 ++ (takeDigits l).2 = l := by
  intro l
  induction l with
  | nil => rfl
  | cons c cs ih =>
    by_cases h : c.isDigit
    · simp [takeDigits, h, ih]
    · simp [takeDigits, h]

theorem takeDigits_digits :
    ∀ (ds suffix : List Char), ds.all Char.isDigit = true →
    headNotDigit suffix = true →
    takeDigits (ds ++ suffix) = (ds, suffix) := by
  intro ds
  induction ds with
  | nil =>
    intro suffix _ h2
    cases suffix with
    | nil => rfl
    | cons c cs =>
      simp [headNotDigit] at h2
      simp [takeDigits, h2]
  | cons d ds ih =>
    intro suffix h1 h2
    simp only [List.all_cons, Bool.and_eq_true] at h1
    simp [takeDigits, h1.1, ih suffix h1.2 h2]

theorem matchBoxPath_box (ds suffix : List Char) (h1 : ds ≠ [])
    (h2 : ds.all Char.isDigit = true) (h3 : headNotDigit suffix = true) :
    matchBoxPath (boxRootChars ++ ds ++ suffix) = some suffix := by
  have e : boxRootChars ++ ds ++ suffix
      = "/var/".data ++ ("local/".data ++ ("lib/isolate/".data ++ (ds ++ suffix))) := by
    simp only [boxRootChars, List.append_assoc]
    rfl
  rw [e]
  simp only [matchBoxPath, matchLit_append]
  rw [takeDigits_digits ds suffix h2 h3]
  cases ds with
  | nil => exact absurd rfl h1
  | cons d ds2 => rfl

theorem matchBoxPath_nil : matchBoxPath [] = none := rfl

theorem subBoxF_nil : ∀ fuel : Nat, subBoxF fuel [] = [] := by
  intro fuel
  cases fuel with
  | zero => rfl
  | succ f => rfl

theorem subBoxF_step (l r : List Char) (fuel : Nat)
    (h : matchBoxPath l = some r) :
    subBoxF (fuel + 1) l = subBoxF fuel r := by
  cases l with
  | nil => rw [matchBoxPath_nil] at h; exact absurd h (by simp)
  | cons c cs => simp [subBoxF, h]

theorem hasBoxPath_cons (c : Char) (cs : List Char)
    (h : hasBoxPath (c :: cs) = false) :
    matchBoxPath (c :: cs) = none ∧ hasBoxPath cs = false := by
  simp only [hasBoxPath, Bool.or_eq_false_iff] at h
  refine ⟨?_, h.2⟩
  cases hm : matchBoxPath (c :: cs) with
  | none => rfl
  | some r =>
    have h1 := h.1
    rw [hm] at h1
    simp at h1

theorem subBoxF_no_match :
    ∀ (l : List Char) (fuel : Nat), hasBoxPath l = false → l.length ≤ fuel →
    subBoxF fuel l = l := by
  intro l
  induction l with
  | nil => intro fuel _ _; exact subBoxF_nil fuel
  | cons c cs ih =>
    intro fuel h hl
    cases fuel with
    | zero => simp at hl
    | succ f =>
      obtain ⟨hm, hcs⟩ := hasBoxPath_cons c cs h
      simp only [subBoxF, hm]
      rw [ih f hcs (by simpa using hl)]

theorem filter_box_box (ds suffix : List Char) (h1 : ds ≠ [])
    (h2 : ds.all Char.isDigit = true) (h3 : headNotDigit suffix = true)
    (h4 : hasBoxPath suffix = false) :
    filter_box (boxRootChars ++ ds ++ suffix) = suffix := by
  have hroot : boxRootChars.length = 23 := rfl
  have hlen : (boxRootChars ++ ds ++ suffix).length
      = 23 + ds.length + suffix.length := by
    simp [List.length_append, hroot]
    omega
  obtain ⟨k, hk, hk2⟩ : ∃ k, (boxRootChars ++ ds ++ suffix).length = k + 1 ∧
      suffix.length ≤ k := by
    refine ⟨22 + ds.length + suffix.length, by omega, by omega⟩
  unfold filter_box
  rw [hk, subBoxF_step _ suffix k (matchBoxPath_box ds suffix h1 h2 h3)]
  exact subBoxF_no_match suffix k h4 hk2

/-- Short-circuit propagation in the loop of Lang.run_tests: if slot k
holds an executed record whose status is TIMED_OUT or RUNTIME_ERROR and
that same test did not fire the fatal break, every later slot holds the
short-circuit record built from its test name. -/
theorem run_tests_from_short_propagates (ex : Nat → Int × Info) (f : Bool) :
    ∀ (ts : List TestSpec) (i k : Nat) (nm : String) (info : Info),
    (run_tests_from ex f ts i false)[k]? = some (TestEntry.executed nm info) →
    isShortStatus info.meta.status = true →
    (∀ t : TestSpec, ts[k]? = some t →
      (((ex (i + k)).1 != 0) && (t.fatal || f)) = false) →
    ∀ j, k < j → ∀ tj : TestSpec, ts[j]? = some tj →
    (run_tests_from ex f ts i false)[j]?
      = some (TestEntry.shorted (test_name tj (i + j)) short_meta_defaults) := by
  intro ts
  induction ts with
  | nil =>
    intro i k nm info hk
    simp [run_tests_from] at hk
  | cons t ts ih =>
    intro i k nm info hk hshort hnb j hj tj htj
    by_cases hbr : (((ex i).1 != 0) && (t.fatal || f)) = true
    · rw [run_tests_from_cons_break ex f t ts i hbr] at hk
      cases k with
      | zero =>
        have hnb0 := hnb t (by simp)
        rw [Nat.add_zero] at hnb0
        rw [hnb0] at hbr
        exact absurd hbr (by simp)
      | succ k2 =>
        simp only [List.getElem?_cons_succ, List.getElem?_map] at hk
        cases hts : ts[k2]? with
        | none => rw [hts] at hk; simp at hk
        | some u => rw [hts] at hk; simp at hk
    · have hbr2 := eq_false_of_ne_true hbr
      rw [run_tests_from_cons_go ex f t ts i hbr2] at hk ⊢
      cases k with
      | zero =>
        simp only [List.getElem?_cons_zero, Option.some.injEq] at hk
        have hinfo : info = (ex i).2 := by
          injection hk.symm with h1 h2
        cases j with
        | zero => omega
        | succ j2 =>
          have hshort2 : isShortStatus (ex i).2.meta.status = true := by
            rw [← hinfo]; exact hshort
          rw [hshort2]
          simp only [List.getElem?_cons_succ]
          rw [run_tests_from_shorted]
          have e := shorted_tail_get ts (i + 1) j2 tj (by simpa using htj)
          rw [e]
          have : i + 1 + j2 = i + (j2 + 1) := by omega
          rw [this]
      | succ k2 =>
        simp only [List.getElem?_cons_succ] at hk
        cases j with
        | zero => omega
        | succ j2 =>
          simp only [List.getElem?_cons_succ]
          cases hs : isShortStatus (ex i).2.meta.status with
          | true =>
            rw [hs] at hk
            rw [run_tests_from_shorted] at hk
            obtain ⟨nm2, he⟩ := shorted_tail_entry ts (i + 1) k2 _ hk
            simp at he
          | false =>
            rw [hs] at hk
            have hnb2 : ∀ u : TestSpec, ts[k2]? = some u →
                (((ex (i + 1 + k2)).1 != 0) && (u.fatal || f)) = false := by
              intro u hu
              have := hnb u (by simpa using hu)
              have e : i + (k2 + 1) = i + 1 + k2 := by omega
              rw [e] at this
              exact this
            have := ih (i + 1) k2 nm info hk hshort hnb2 j2 (by omega) tj
              (by simpa using htj)
            rw [this]
            have e : i + 1 + j2 = i + (j2 + 1) := by omega
            rw [e]

/-! Concrete fixtures used by witnesses and counterexamples. -/

/-- A concrete run-metadata record with the given status. -/
def mkMeta (st : String) : MetaInfo :=
  { cgMem := 1
    cgOomKilled := 0
    cswForced := 2
    cswVoluntary := 3
    exitcode := 0
    exitsig := 0
    exitsigMessage := none
    killed := false
    maxRss := 128
    message := none
    status := st
    time := 1
    timeWall := 2 }

/-- A concrete isolator info record with the given status. -/
def mkInfo (st : String) : Info := { meta := mkMeta st, stdout := [], stderr := [] }

/-- A compile outcome that succeeds but leaves no binary (unused fields for
interpreted fixtures). -/
def coNone : CompileOutcome := { retcode := 0, info := mkInfo "OK", binary := none }

/-- An execution oracle whose every test succeeds. -/
def exOK : Nat → Int × Info := fun _ => (0, mkInfo "OK")

/-- A coupler outcome where both children succeed. -/
def pairOK : PairOutcome :=
  { progRetcode := 0
    progInfo := mkInfo "OK"
    interactRetcode := 0
    interactInfo := mkInfo "OK" }

/-! The claims. -/

/-- C5: for every descriptor with no compiler and every source byte
string, the artifact bytes handed to the execute stage (the bytes
write_binary writes into the box as the artifact file) are exactly the
source bytes of the request. -/
theorem C5_source_round_trip (src : List Nat) (ext : Option String)
    (co : CompileOutcome) (r : RunResult) (ts : Option (List TestSpec))
    (af : Bool) :
    (run_compilation false co
        { source := some src, tests := ts, allFatal := af } r).2 = some src
    ∧ (write_binary false ext src).2 = src := by
  constructor
  · simp [run_compilation, force_bytes]
  · rfl

/-- C10: for a descriptor with no compiler, a request whose source is
absent or empty yields a result with no tests key (and no compile key):
the empty artifact fails the truthiness check after compilation and no
test is run. -/
theorem C10_empty_source_no_tests (co : CompileOutcome) (ex : Nat → Int × Info)
    (opts : Opts) (h : opts.source = none ∨ opts.source = some []) :
    run false co ex opts = { compile := none, tests := none } := by
  rcases h with h | h <;> simp [run, run_compilation, force_bytes, h]

/-- Witness for C10 at a concrete request with the source key absent. -/
theorem C10_empty_source_no_tests_witness :
    run false coNone exOK { source := none }
      = { compile := none, tests := none } :=
  C10_empty_source_no_tests coNone exOK { source := none } (Or.inl rfl)

/-- C7 (amended): when the compile stage runs, a nonzero retcode ends the
run with only the compile record and no tests; a zero retcode with no
readable binary appends the missing-binary line to the compile stderr,
after a blank separator exactly when the stripped stderr is non-empty
(that is, when stderr holds a non-whitespace byte), and runs no tests. -/
theorem C7_compile_failure_handling (co : CompileOutcome) (opts : Opts)
    (ex : Nat → Int × Info) :
    (co.retcode ≠ 0 →
      run true co ex opts = { compile := some co.info, tests := none })
    ∧ (co.retcode = 0 → co.binary = none →
      run true co ex opts
        = { compile := some { co.info with stderr :=
              co.info.stderr
              ++ (if co.info.stderr.any (fun b => !(isSpaceByte b))
                  then strBytes "\n\n" else [])
              ++ cannot_find_msg },
            tests := none }) := by
  constructor
  · intro h
    have hb : (co.retcode != 0) = true := by simpa [bne_iff_ne] using h
    simp [run, run_compilation, hb]
  · intro h hbin
    have hb : (co.retcode != 0) = false := by simp [bne, h]
    simp [run, run_compilation, hb, hbin]

/-- Counterexample for C7 as stated: a whitespace-only stderr is non-empty
but the code appends no blank separator (the code tests the stripped
stderr, not emptiness): on stderr consisting of one newline byte the
recorded stderr is the newline directly followed by the diagnostic, which
differs from the separator form the claim requires. -/
theorem C7_counterexample :
    ([10] : List Nat) ≠ []
    ∧ (run_compilation true
        { retcode := 0, info := { meta := mkMeta "OK", stdout := [], stderr := [10] },
          binary := none } {} {}).1.compile
      = some { meta := mkMeta "OK", stdout := [],
               stderr := [10] ++ cannot_find_msg }
    ∧ [10] ++ cannot_find_msg ≠ [10] ++ strBytes "\n\n" ++ cannot_find_msg := by
  refine ⟨by decide, by decide, by decide⟩

/-- C9: an interactive test executes successfully exactly when its test
spec carries a non-empty stdin payload; otherwise input_data stays None
and writing it into input.txt raises before the children are launched. -/
theorem C9_interactive_stdin_required (out : PairOutcome) (test : TestSpec) :
    ((interactive_execute out test).isOk = true)
      ↔ ∃ d : List Nat, test.stdin = some d ∧ d ≠ [] := by
  unfold interactive_execute
  cases h : test.stdin with
  | none => simp [Except.isOk, Except.toBool]
  | some d =>
    cases d with
    | nil => simp [Except.isOk, Except.toBool]
    | cons a l => simp [Except.isOk, Except.toBool]

/-- C8: evaluated at the failing input.  A single run naming the unknown
language cobol99 surfaces a RuntimeError whose text carries the name; an
interactive request naming it as the prog language instead raises the
NameError about the unbound variable lang_name, whose surfaced text does
not contain cobol99 anywhere. -/
theorem C8_unknown_language_messages :
    run_handler_lookup ["python"] "cobol99"
      = Except.error (PyError.runtimeError "Incorrect language cobol99")
    ∧ hasSub "cobol99".data
        (errorText (PyError.runtimeError "Incorrect language cobol99")).data = true
    ∧ interactive_handler_lookup ["python"] "cobol99" "python"
      = Except.error (PyError.nameError "lang_name")
    ∧ hasSub "cobol99".data
        (errorText (PyError.nameError "lang_name")).data = false := by
  refine ⟨by rfl, by decide, by rfl, by decide⟩

/-- Counterexample for C1 as stated: the first test times out with a
nonzero retcode and is marked fatal, so the loop breaks on the very test
that set is_shorted; the second test then receives the untouched empty
placeholder, not a SHORT_CIRCUIT record. -/
theorem C1_counterexample :
    run_tests (fun i => if i = 0 then (1, mkInfo "TIMED_OUT") else (0, mkInfo "OK"))
      { tests := some [{ fatal := true }, { name := some "second" }] }
      = some [TestEntry.executed "test000" (mkInfo "TIMED_OUT"), TestEntry.slot0]
    ∧ ∀ m : MetaInfo, TestEntry.slot0 ≠ TestEntry.shorted "second" m := by
  constructor
  · decide
  · intro m h
    cases h

/-- C1 (amended): once a test's recorded meta status is TIMED_OUT or
RUNTIME_ERROR, and that test did not itself fire the fatal break, then
every subsequent test is not executed and its slot holds the record
carrying that test's name (given name or default) and the meta populating
every run-metadata key with its deterministic zero value and status
SHORT_CIRCUIT; when the short-circuiting test does fire the fatal break,
the loop exits instead and the later slots stay empty placeholders. -/
theorem C1_short_circuit_tail (ex : Nat → Int × Info) (opts : Opts)
    (l : List TestEntry) (h : run_tests ex opts = some l)
    (k : Nat) (nm : String) (info : Info)
    (hk : l[k]? = some (TestEntry.executed nm info))
    (hshort : isShortStatus info.meta.status = true)
    (hnb : ((opts.tests.getD [{}])[k]?).all
      (fun t => !(((ex k).1 != 0) && (t.fatal || opts.allFatal))) = true)
    (j : Nat) (hj : k < j) (tj : TestSpec)
    (htj : (opts.tests.getD [{}])[j]? = some tj) :
    l[j]? = some (TestEntry.shorted (test_name tj j)
      { cgMem := 0
        cgOomKilled := 0
        cswForced := 0
        cswVoluntary := 0
        exitcode := 0
        exitsig := 0
        exitsigMessage := none
        killed := false
        maxRss := 0
        message := none
        status := "SHORT_CIRCUIT"
        time := 0
        timeWall := 0 }) := by
  have hl : l = run_tests_from ex opts.allFatal (opts.tests.getD [{}]) 0 false := by
    simp only [run_tests] at h
    by_cases hE : (opts.tests.getD [{}]).isEmpty
    · simp [hE] at h
    · simp [hE] at h
      exact h.symm
  subst hl
  have h0 : ∀ t : TestSpec, (opts.tests.getD [{}])[k]? = some t →
      (((ex (0 + k)).1 != 0) && (t.fatal || opts.allFatal)) = false := by
    intro t ht
    rw [ht] at hnb
    rw [Nat.zero_add]
    have hb : (!(((ex k).1 != 0) && (t.fatal || opts.allFatal))) = true := hnb
    cases hcond : (((ex k).1 != 0) && (t.fatal || opts.allFatal)) with
    | false => rfl
    | true =>
      rw [hcond] at hb
      exact absurd hb (by decide)
  have main := run_tests_from_short_propagates ex opts.allFatal
    (opts.tests.getD [{}]) 0 k nm info hk hshort h0 j hj tj htj
  rw [Nat.zero_add] at main
  exact main

/-- Witness data for C1: scenario 3 of the spec, a timeout on the first
test with no fatal flag, a named second test. -/
def w1ex : Nat → Int × Info :=
  fun i => if i = 0 then (1, mkInfo "TIMED_OUT") else (0, mkInfo "OK")

/-- The opts of the C1 witness. -/
def w1opts : Opts := { tests := some [{}, { name := some "second" }] }

/-- The result list of the C1 witness run. -/
def w1list : List TestEntry :=
  [TestEntry.executed "test000" (mkInfo "TIMED_OUT"),
   TestEntry.shorted "second" short_meta_defaults]

/-- Witness for C1 (amended) at the concrete timeout scenario. -/
theorem C1_short_circuit_tail_witness :
    w1list[1]? = some (TestEntry.shorted
      (test_name { name := some "second" } 1)
      { cgMem := 0
        cgOomKilled := 0
        cswForced := 0
        cswVoluntary := 0
        exitcode := 0
        exitsig := 0
        exitsigMessage := none
        killed := false
        maxRss := 0
        message := none
        status := "SHORT_CIRCUIT"
        time := 0
        timeWall := 0 }) :=
  C1_short_circuit_tail w1ex w1opts w1list (by decide) 0 "test000"
    (mkInfo "TIMED_OUT") (by decide) (by decide) (by decide)
    1 (by decide) { name := some "second" } (by decide)

/-- Counterexample for C2 as stated: a descriptor with no compiler and a
non-empty tests list, but an absent source; the forced source bytes are
empty, the truthiness check stops the run and the result carries no tests
list at all, so its length is not the length of the tests list. -/
theorem C2_counterexample :
    (run false coNone exOK { tests := some [{}] }).tests = none := by
  decide

/-- C2 (amended): whenever the compilation stage hands back a truthy
artifact (present and non-empty) and the tests list is non-empty, the
result's tests list exists and has exactly the length of the input tests
list, on every exit of the loop including the fatal break. -/
theorem C2_result_tests_length (hasCompiler : Bool) (co : CompileOutcome)
    (ex : Nat → Int × Info) (opts : Opts) (b : List Nat)
    (hbin : (run_compilation hasCompiler co opts {}).2 = some b)
    (hb : b ≠ []) (hts : opts.tests.getD [{}] ≠ []) :
    ∃ l, (run hasCompiler co ex opts).tests = some l ∧
      l.length = (opts.tests.getD [{}]).length := by
  have hbe : b.isEmpty = false := by
    cases b with
    | nil => exact absurd rfl hb
    | cons a l => rfl
  have hte : (opts.tests.getD [{}]).isEmpty = false := by
    cases hc : opts.tests.getD [{}] with
    | nil => exact absurd hc hts
    | cons a l => rfl
  refine ⟨run_tests_from ex opts.allFatal (opts.tests.getD [{}]) 0 false, ?_, ?_⟩
  · simp only [run, hbin, hbe, Bool.false_eq_true, if_false]
    simp [run_tests, hte]
  · exact run_tests_from_length ex opts.allFatal _ 0 false

/-- Witness for C2 (amended): an interpreted run with one source byte and
one empty test spec. -/
theorem C2_result_tests_length_witness :
    ∃ l, (run false coNone exOK { source := some [42], tests := some [{}] }).tests
        = some l ∧
      l.length = (({ source := some [42], tests := some [{}] } : Opts).tests.getD
        [{}]).length :=
  C2_result_tests_length false coNone exOK
    { source := some [42], tests := some [{}] } [42]
    (by decide) (by decide) (by decide)

/-- C3: three tests with the middle one fatal and failing (nonzero
retcode), the first succeeding with status OK: the first slot records the
first outcome, the second records the failing outcome, and the loop
breaks before the third test, whose pre-allocated slot stays the untouched
empty placeholder, so no record (no name, no meta) for it enters the
result. -/
theorem C3_fatal_middle_test (t0 t1 t2 : TestSpec) (ex : Nat → Int × Info)
    (opts : Opts) (hts : opts.tests = some [t0, t1, t2])
    (hfatal : t1.fatal = true) (h1r : (ex 1).1 ≠ 0)
    (h0r : (ex 0).1 = 0) (h0s : (ex 0).2.meta.status = "OK") :
    run_tests ex opts
      = some [TestEntry.executed (test_name t0 0) (ex 0).2,
              TestEntry.executed (test_name t1 1) (ex 1).2,
              TestEntry.slot0] := by
  have e0 : (((ex 0).1 != 0) && (t0.fatal || opts.allFatal)) = false := by
    simp [bne, h0r]
  have e1 : (((ex 1).1 != 0) && (t1.fatal || opts.allFatal)) = true := by
    have hbne : ((ex 1).1 != 0) = true := by simpa [bne_iff_ne] using h1r
    simp [hbne, hfatal]
  have eS : isShortStatus (ex 0).2.meta.status = false := by
    rw [h0s]
    rfl
  simp only [run_tests, hts, Option.getD_some, List.isEmpty_cons,
    Bool.false_eq_true, if_false]
  rw [run_tests_from_cons_go ex opts.allFatal t0 [t1, t2] 0 e0, eS,
    Nat.zero_add]
  rw [run_tests_from_cons_break ex opts.allFatal t1 [t2] 1 e1]
  rfl

/-- Witness for C3 at a concrete three-test run with a failing fatal
middle test. -/
theorem C3_fatal_middle_test_witness :
    run_tests (fun i => if i = 1 then (2, mkInfo "RUNTIME_ERROR") else (0, mkInfo "OK"))
      { tests := some [{}, { fatal := true }, {}] }
      = some [TestEntry.executed (test_name {} 0) (mkInfo "OK"),
              TestEntry.executed (test_name { fatal := true } 1)
                (mkInfo "RUNTIME_ERROR"),
              TestEntry.slot0] :=
  C3_fatal_middle_test {} { fatal := true } {}
    (fun i => if i = 1 then (2, mkInfo "RUNTIME_ERROR") else (0, mkInfo "OK"))
    { tests := some [{}, { fatal := true }, {}] }
    rfl rfl (by decide) rfl rfl

/-- Counterexample for C6 as stated: both compilations hand back truthy
binaries, but the interactor's tests list is explicitly empty, so neither
result carries a tests key at all, refuting that both exist with the
interactor's tests length. -/
theorem C6_counterexample :
    (run_compilation false coNone { source := some [1] } {}).2 = some [1]
    ∧ (run_compilation false coNone { source := some [1], tests := some [] } {}).2
      = some [1]
    ∧ (interactive_run false false coNone coNone (fun _ => pairOK)
        { source := some [1] } { source := some [1], tests := some [] }).1.tests
      = none
    ∧ (interactive_run false false coNone coNone (fun _ => pairOK)
        { source := some [1] } { source := some [1], tests := some [] }).2.tests
      = none := by
  refine ⟨by decide, by decide, by decide, by decide⟩

/-- C6 (amended): in the interactive pipeline the interactor's tests list
alone determines the test count: whenever both compilations hand back
truthy binaries and the interactor's tests list (after the single-empty
default) is non-empty, both result.prog.tests and result.interact.tests
exist and have its length, regardless of the prog request's tests; when
the interactor's tests list is explicitly empty, neither key is set. -/
theorem C6_interactive_tests_length (hp hi : Bool) (cop coi : CompileOutcome)
    (ex : Nat → PairOutcome) (optsP optsI : Opts) (bp bi : List Nat)
    (hbp : (run_compilation hp cop optsP {}).2 = some bp) (hbp2 : bp ≠ [])
    (hbi : (run_compilation hi coi optsI {}).2 = some bi) (hbi2 : bi ≠ [])
    (hts : optsI.tests.getD [{}] ≠ []) :
    ∃ lp li,
      (interactive_run hp hi cop coi ex optsP optsI).1.tests = some lp ∧
      (interactive_run hp hi cop coi ex optsP optsI).2.tests = some li ∧
      lp.length = (optsI.tests.getD [{}]).length ∧
      li.length = (optsI.tests.getD [{}]).length := by
  have tbp : binaryTruthy (run_compilation hp cop optsP {}).2 = true := by
    rw [hbp]
    cases bp with
    | nil => exact absurd rfl hbp2
    | cons a l => rfl
  have tbi : binaryTruthy (run_compilation hi coi optsI {}).2 = true := by
    rw [hbi]
    cases bi with
    | nil => exact absurd rfl hbi2
    | cons a l => rfl
  have hte : (optsI.tests.getD [{}]).isEmpty = false := by
    cases hc : optsI.tests.getD [{}] with
    | nil => exact absurd hc hts
    | cons a l => rfl
  refine ⟨(interactive_run_tests_from ex optsI.allFatal
      (optsI.tests.getD [{}]) 0 false).1,
    (interactive_run_tests_from ex optsI.allFatal
      (optsI.tests.getD [{}]) 0 false).2, ?_, ?_, ?_, ?_⟩
  · simp only [interactive_run, tbp, tbi, Bool.and_self, if_true]
    simp [interactive_run_tests, hte]
  · simp only [interactive_run, tbp, tbi, Bool.and_self, if_true]
    simp [interactive_run_tests, hte]
  · exact (interactive_run_tests_from_length ex optsI.allFatal _ 0 false).1
  · exact (interactive_run_tests_from_length ex optsI.allFatal _ 0 false).2

/-- Witness for C6 (amended): interpreted prog with no tests key, an
interactor with two tests: both result sides carry two entries. -/
theorem C6_interactive_tests_length_witness :
    ∃ lp li,
      (interactive_run false false coNone coNone (fun _ => pairOK)
        { source := some [1] }
        { source := some [2], tests := some [{}, {}] }).1.tests = some lp ∧
      (interactive_run false false coNone coNone (fun _ => pairOK)
        { source := some [1] }
        { source := some [2], tests := some [{}, {}] }).2.tests = some li ∧
      lp.length = (({ source := some [2], tests := some [{}, {}] } : Opts).tests.getD
        [{}]).length ∧
      li.length = (({ source := some [2], tests := some [{}, {}] } : Opts).tests.getD
        [{}]).length :=
  C6_interactive_tests_length false false coNone coNone (fun _ => pairOK)
    { source := some [1] } { source := some [2], tests := some [{}, {}] }
    [1] [2] (by decide) (by decide) (by decide) (by decide) (by decide)

theorem pathJoin_boxWd (ds : List Char) (n : String) :
    pathJoin (boxWd ds) n = boxRootChars ++ ds ++ ("/box/".data ++ n.data) := by
  simp only [pathJoin, boxWd, List.append_assoc]
  rfl

theorem filter_box_pathJoin (ds : List Char) (n : String) (h1 : ds ≠ [])
    (h2 : ds.all Char.isDigit = true)
    (h3 : hasBoxPath ("/box/".data ++ n.data) = false) :
    filter_box (pathJoin (boxWd ds) n) = "/box/".data ++ n.data := by
  rw [pathJoin_boxWd]
  exact filter_box_box ds ("/box/".data ++ n.data) h1 h2 rfl h3

theorem filter_box_boxWd (ds : List Char) (h1 : ds ≠ [])
    (h2 : ds.all Char.isDigit = true) :
    filter_box (boxWd ds) = "/box".data :=
  filter_box_box ds "/box".data h1 h2 rfl (by decide)

/-- C4: no host box path survives into what the sandboxed child sees.
For a working directory of the box form, the compile argv, the execute
argv and the HOME entry built from it are all passed through the
host-path scrub; given that the statically configured strings (compiler
and interpreter paths and options, declared environment values, and the
in-box file names) are themselves free of the host box-path pattern,
every argv element and every environment value delivered to the child is
free of it. -/
theorem C4_no_host_paths_delivered
    (ds : List Char) (hne : ds ≠ []) (hdig : ds.all Char.isDigit = true)
    (compilerCmd : List Char) (compilerOpts envVals : List (List Char))
    (interpCmd : List Char) (interpOpts : List (List Char))
    (srcName exeName : String)
    (h1 : hasBoxPath compilerCmd = false)
    (h2 : ∀ o ∈ compilerOpts, hasBoxPath o = false)
    (h3 : ∀ v ∈ envVals, hasBoxPath v = false)
    (h4 : hasBoxPath interpCmd = false)
    (h5 : ∀ o ∈ interpOpts, hasBoxPath o = false)
    (h6 : hasBoxPath ("/box/".data ++ srcName.data) = false)
    (h7 : hasBoxPath ("/box/".data ++ exeName.data) = false) :
    (∀ a ∈ compile_command compilerCmd compilerOpts
        (pathJoin (boxWd ds) srcName) (pathJoin (boxWd ds) exeName),
        hasBoxPath a = false)
    ∧ (∀ a ∈ execute_command (some (interpCmd, interpOpts))
        (pathJoin (boxWd ds) exeName),
        hasBoxPath a = false)
    ∧ (∀ v ∈ home_env (boxWd ds) :: envVals, hasBoxPath v = false) := by
  have hsrc : hasBoxPath (filter_box (pathJoin (boxWd ds) srcName)) = false := by
    rw [filter_box_pathJoin ds srcName hne hdig h6]
    exact h6
  have hexe : hasBoxPath (filter_box (pathJoin (boxWd ds) exeName)) = false := by
    rw [filter_box_pathJoin ds exeName hne hdig h7]
    exact h7
  have hhome : hasBoxPath (home_env (boxWd ds)) = false := by
    show hasBoxPath (filter_box (boxWd ds)) = false
    rw [filter_box_boxWd ds hne hdig]
    decide
  refine ⟨?_, ?_, ?_⟩
  · intro a ha
    rcases List.mem_cons.mp ha with h | h
    · subst h
      exact h1
    rcases List.mem_append.mp h with h | h
    · rcases List.mem_append.mp h with h | h
      · exact h2 a h
      · rcases List.mem_cons.mp h with h | h
        · subst h
          decide
        · have e := List.mem_singleton.mp h
          subst e
          exact hexe
    · have e := List.mem_singleton.mp h
      subst e
      exact hsrc
  · intro a ha
    rcases List.mem_append.mp ha with h | h
    · rcases List.mem_cons.mp h with h | h
      · subst h
        exact h4
      · exact h5 a h
    · have e := List.mem_singleton.mp h
      subst e
      exact hexe
  · intro v hv
    rcases List.mem_cons.mp hv with h | h
    · subst h
      exact hhome
    · exact h3 v h

/-- Witness for C4 at the concrete cxx23 and pypy descriptors, box id 42. -/
theorem C4_no_host_paths_delivered_witness :
    (∀ a ∈ compile_command "/usr/bin/g++-14".data
        ["-std=c++23".data, "-Wall".data, "-Wextra".data, "-O2".data]
        (pathJoin (boxWd "42".data) "source.cc")
        (pathJoin (boxWd "42".data) "compiled"),
        hasBoxPath a = false)
    ∧ (∀ a ∈ execute_command (some ("/usr/bin/pypy3".data, []))
        (pathJoin (boxWd "42".data) "compiled"),
        hasBoxPath a = false)
    ∧ (∀ v ∈ home_env (boxWd "42".data) :: ([] : List (List Char)),
        hasBoxPath v = false) :=
  C4_no_host_paths_delivered "42".data (by decide) (by decide)
    "/usr/bin/g++-14".data
    ["-std=c++23".data, "-Wall".data, "-Wextra".data, "-O2".data] []
    "/usr/bin/pypy3".data [] "source.cc" "compiled"
    (by decide) (by decide) (by decide) (by decide) (by decide)
    (by decide) (by decide)

end Camisole
